import Mathlib

/-!
Verification development for the Cycles light-tree builder
(`src/intern/cycles/render/light_tree.h`).

The repository ships only the header: the struct definitions and their
inline member functions (`Orientation`'s constructors, `BVHBuildNode.init_leaf`
and `init_interior`, `BVHPrimitiveInfo`'s constructor, `CompareToBucket`,
`CompactNode`, the `LightTree` accessors) are source code and are embedded
here directly.  The bodies of `LightTree::LightTree`, `recursive_build`,
`split_saoh`, `flattenBVHTree`, `cone_union`, `aggregate_bounding_cones` and
`calculate_cone_measure` are only declared in the header, so they are
modelled from the specification (each such definition carries a
`Modelled from the spec:` doc comment).

Machine floats are embedded as exact rationals (`ℚ`); the cone-union
functions, which involve inverse trigonometry, are modelled over `ℝ` in a
separate section.  The builder is parametric in the cone-union and
cone-measure functions, whose bodies the header does not provide.
-/

namespace CyclesLightTree

/-- Rational model of the `float3` vector type used by the header. -/
structure float3 where
  x : ℚ
  y : ℚ
  z : ℚ
deriving DecidableEq

/-- Component access, modelling `float3::operator[]` for dimensions 0..2. -/
def float3.nth (v : float3) : ℕ → ℚ
  | 0 => v.x
  | 1 => v.y
  | _ => v.z

/-- Componentwise minimum of two vectors (`util_math`'s `min`). -/
def fmin (a b : float3) : float3 :=
  ⟨min a.x b.x, min a.y b.y, min a.z b.z⟩

/-- Componentwise maximum of two vectors (`util_math`'s `max`). -/
def fmax (a b : float3) : float3 :=
  ⟨max a.x b.x, max a.y b.y, max a.z b.z⟩

/-- Rational model of `BoundBox` from `util_boundbox.h`: a min and a max corner. -/
structure BoundBox where
  min : float3
  max : float3
deriving DecidableEq

/-- Union of two bounding boxes (`merge` in `util_boundbox.h`), used by
`BVHBuildNode::init_interior` at `light_tree.h:69`. -/
def merge (a b : BoundBox) : BoundBox :=
  ⟨fmin a.min b.min, fmax a.max b.max⟩

/-- Growing a bounding box to cover a point (`BoundBox::grow`). -/
def grow (a : BoundBox) (p : float3) : BoundBox :=
  ⟨fmin a.min p, fmax a.max p⟩

/-- Center of a bounding box (`BoundBox::center`), used for the centroid of a
`BVHPrimitiveInfo` at `light_tree.h:93`. -/
def BoundBox.center (b : BoundBox) : float3 :=
  ⟨(b.min.x + b.max.x) / 2, (b.min.y + b.max.y) / 2, (b.min.z + b.max.z) / 2⟩

/-- Extent of a bounding box along dimension `d` (`max[d] - min[d]`), the
quantity inverted by `CompareToBucket`'s constructor at `light_tree.h:129`. -/
def BoundBox.extent (b : BoundBox) (d : ℕ) : ℚ :=
  b.max.nth d - b.min.nth d

/-- Surface area of a bounding box, the SAH area term of the split cost. -/
def BoundBox.area (b : BoundBox) : ℚ :=
  let dx := b.max.x - b.min.x
  let dy := b.max.y - b.min.y
  let dz := b.max.z - b.min.z
  2 * (dx * dy + dy * dz + dz * dx)

/-- The bucket-count constant `LIGHT_BVH_NODE_SIZE` (`light_tree.h:29`). -/
def LIGHT_BVH_NODE_SIZE : ℕ := 4

/-- Rational model of the `Orientation` cone struct (`light_tree.h:31`):
an axis and the two half-angles `theta_o` and `theta_e`. -/
structure Orientation where
  axis : float3
  theta_o : ℚ
  theta_e : ℚ
deriving DecidableEq

/-- The default `Orientation` constructor (`light_tree.h:32`): zero axis and
zero angles. -/
def Orientation.default' : Orientation := ⟨⟨0, 0, 0⟩, 0, 0⟩

instance : Inhabited Orientation := ⟨Orientation.default'⟩

/-- Model of the `Primitive` struct (`light_tree.h:107`): `prim_id ≥ 0` means a
triangle whose owning object is `object_id`; `prim_id < 0` means a lamp and the
second field is read as `lamp_id` (the two share storage via a union). -/
structure Primitive where
  prim_id : ℤ
  object_id : ℤ
deriving DecidableEq

/-- Model of the build record `BVHPrimitiveInfo` (`light_tree.h:85`). -/
structure BVHPrimitiveInfo where
  primitiveNumber : ℕ
  bbox : BoundBox
  centroid : float3
  energy : ℚ
  bcone : Orientation
deriving DecidableEq

/-- The `BVHPrimitiveInfo` constructor (`light_tree.h:89`): the centroid is the
bounding-box center, and the cone fields are copied from `oBounds`. -/
def BVHPrimitiveInfo.make (primitiveNumber : ℕ) (bounds : BoundBox)
    (oBounds : Orientation) (e : ℚ) : BVHPrimitiveInfo :=
  ⟨primitiveNumber, bounds, bounds.center, e, oBounds⟩

/-- Truncation toward zero of a rational, modelling the C `(int)` cast of a
`float` at `light_tree.h:133`. -/
def truncQ (q : ℚ) : ℤ :=
  if 0 ≤ q then ⌊q⌋ else -⌊-q⌋

/-- Model of the `CompareToBucket` functor state (`light_tree.h:122`). -/
structure CompareToBucket where
  splitBucket : ℤ
  nBuckets : ℤ
  dim : ℕ
  invExtent : ℚ
  centroidBbox : BoundBox

/-- The `CompareToBucket` constructor (`light_tree.h:123`): stores the split
bucket, bucket count and dimension, and precomputes
`invExtent = 1 / (centroidBbox.max[dim] - centroidBbox.min[dim])`. -/
def CompareToBucket.make (split num : ℤ) (d : ℕ) (b : BoundBox) :
    CompareToBucket :=
  ⟨split, num, d, 1 / (b.max.nth d - b.min.nth d), b⟩

/-- The bucket index computed inside `CompareToBucket::operator()`
(`light_tree.h:133`): `(int)(nBuckets * (centroid[dim] - min[dim]) * invExtent)`,
with the result clamped from `nBuckets` down to `nBuckets - 1`. -/
def CompareToBucket.bucketFor (c : CompareToBucket) (p : BVHPrimitiveInfo) : ℤ :=
  let bucket_id :=
    truncQ ((c.nBuckets : ℚ) *
      (p.centroid.nth c.dim - c.centroidBbox.min.nth c.dim) * c.invExtent)
  if bucket_id = c.nBuckets then c.nBuckets - 1 else bucket_id

/-- `CompareToBucket::operator()` (`light_tree.h:132`): a primitive goes left
exactly when its bucket index is at most `splitBucket`. -/
def CompareToBucket.op (c : CompareToBucket) (p : BVHPrimitiveInfo) : Bool :=
  c.bucketFor p ≤ c.splitBucket

/-- Model of the build-time node `BVHBuildNode` (`light_tree.h:46`) as an
owned binary tree: a leaf stores `firstPrimOffset` and `num_emitters`, an
interior node stores its split axis and two children; both carry the merged
bbox, cone, emitter count, energy and energy variance. -/
inductive BVHBuildNode where
  | leaf (firstPrimOffset num_emitters : ℕ) (bbox : BoundBox)
      (bcone : Orientation) (energy energy_variance : ℚ)
  | interior (splitAxis : ℕ) (c0 c1 : BVHBuildNode) (bbox : BoundBox)
      (bcone : Orientation) (num_emitters : ℕ) (energy energy_variance : ℚ)
deriving DecidableEq

/-- Bounding box stored in a build node. -/
def BVHBuildNode.bbox : BVHBuildNode → BoundBox
  | .leaf _ _ b _ _ _ => b
  | .interior _ _ _ b _ _ _ _ => b

/-- Orientation cone stored in a build node. -/
def BVHBuildNode.bcone : BVHBuildNode → Orientation
  | .leaf _ _ _ c _ _ => c
  | .interior _ _ _ _ c _ _ _ => c

/-- Energy stored in a build node. -/
def BVHBuildNode.energy : BVHBuildNode → ℚ
  | .leaf _ _ _ _ e _ => e
  | .interior _ _ _ _ _ _ e _ => e

/-- Emitter count stored in a build node. -/
def BVHBuildNode.num_emitters : BVHBuildNode → ℕ
  | .leaf _ n _ _ _ _ => n
  | .interior _ _ _ _ _ n _ _ => n

/-- Leaf discriminator of a build node (the `is_leaf` flag). -/
def BVHBuildNode.is_leaf : BVHBuildNode → Bool
  | .leaf _ _ _ _ _ _ => true
  | .interior _ _ _ _ _ _ _ _ => false

/-- `BVHBuildNode::init_leaf` (`light_tree.h:53`): builds a leaf from the
range offset, emitter count and the merged aggregates. -/
def BVHBuildNode.init_leaf (first n : ℕ) (b : BoundBox) (c : Orientation)
    (e e_var : ℚ) : BVHBuildNode :=
  .leaf first n b c e e_var

/-- `BVHBuildNode::init_interior` (`light_tree.h:64`): builds an interior node
from an axis and two children; the bounding box is computed as
`merge(c0->bbox, c1->bbox)` while the cone, count, energy and variance are
taken from the caller. -/
def BVHBuildNode.init_interior (axis : ℕ) (c0 c1 : BVHBuildNode)
    (c : Orientation) (n : ℕ) (e e_var : ℚ) : BVHBuildNode :=
  .interior axis c0 c1 (merge c0.bbox c1.bbox) c n e e_var

/-- Model of the traversal-ready `CompactNode` struct (`light_tree.h:148`).
`secondChildOffset` is `-1` on leaves (the "no right child" sentinel) and the
array index of the right child on interior nodes. -/
structure CompactNode where
  energy : ℚ
  energy_variance : ℚ
  secondChildOffset : ℤ
  prim_id : ℤ
  num_emitters : ℤ
  bounds_w : BoundBox
  bounds_o : Orientation
deriving DecidableEq

instance : Inhabited CompactNode :=
  ⟨⟨0, 0, -1, -1, -1, ⟨⟨0, 0, 0⟩, ⟨0, 0, 0⟩⟩, Orientation.default'⟩⟩

/-! ### The recursive builder

The bodies of `LightTree::recursive_build`, `LightTree::split_saoh`,
`LightTree::flattenBVHTree` and the `LightTree` constructor are declared in
the header (`light_tree.h:172, 192, 201, 202`) but their definitions are not
in `src/`; the definitions below model them from the specification (§4.3–§4.5).
The builder is parametric in the cone-union function `cu` (modelling
`LightTree::cone_union`, whose body is also absent) and the cone measure `cm`
(modelling `LightTree::calculate_cone_measure`). -/

/-- Summed energy of a range of build records (spec §4.3 step 1). -/
def energySum (ps : List BVHPrimitiveInfo) : ℚ :=
  (ps.map BVHPrimitiveInfo.energy).sum

/-- Summed squared energy of a range, used for the energy variance. -/
def energySqSum (ps : List BVHPrimitiveInfo) : ℚ :=
  (ps.map (fun p => p.energy * p.energy)).sum

/-- Modelled from the spec: the energy variance across a range of build
records (spec §4.3 step 1), as `E[e²] − E[e]²`; the defining code is not in
`src/`. -/
def energyVar (ps : List BVHPrimitiveInfo) : ℚ :=
  energySqSum ps / (ps.length : ℚ) -
    (energySum ps / (ps.length : ℚ)) * (energySum ps / (ps.length : ℚ))

/-- Merged world bounding box of a (nonempty) range of build records
(spec §4.3 step 1). -/
def mergedBBoxOf : List BVHPrimitiveInfo → BoundBox
  | [] => ⟨⟨0, 0, 0⟩, ⟨0, 0, 0⟩⟩
  | p :: ps => ps.foldl (fun b q => merge b q.bbox) p.bbox

/-- Merged centroid bounding box of a (nonempty) range of build records, the
box whose buckets the SAOH search cuts (spec §4.3 step 3). -/
def centroidBoundsOf : List BVHPrimitiveInfo → BoundBox
  | [] => ⟨⟨0, 0, 0⟩, ⟨0, 0, 0⟩⟩
  | p :: ps => ps.foldl (fun b q => grow b q.centroid) ⟨p.centroid, p.centroid⟩

/-- Modelled from the spec: `LightTree::aggregate_bounding_cones`
(declared at `light_tree.h:198`, body not in `src/`) over the builder's
rational cones — repeated pairwise union of a sequence of cones (spec §4.1),
parametric in the pairwise union `cu`. -/
def aggregateConesWith (cu : Orientation → Orientation → Orientation) :
    List Orientation → Orientation
  | [] => Orientation.default'
  | c :: cs => cs.foldl cu c

/-- Zero spatial extent of a bounding box in every axis — the condition that
forces the leaf fallback (spec §4.3 step 2). -/
def allZeroExtent (b : BoundBox) : Prop :=
  b.extent 0 = 0 ∧ b.extent 1 = 0 ∧ b.extent 2 = 0

instance (b : BoundBox) : Decidable (allZeroExtent b) :=
  inferInstanceAs (Decidable (_ ∧ _ ∧ _))

/-- Modelled from the spec: the cost contribution of one side of a candidate
split — sub-range energy times surface area times cone measure
(spec §4.3 step 3 (a)–(c); the defining code of `split_saoh` is not in
`src/`). An empty side contributes zero. -/
def sideCost (cu : Orientation → Orientation → Orientation)
    (cm : Orientation → ℚ) (side : List BVHPrimitiveInfo) : ℚ :=
  match side with
  | [] => 0
  | _ => energySum side * (mergedBBoxOf side).area *
      cm (aggregateConesWith cu (side.map BVHPrimitiveInfo.bcone))

/-- Modelled from the spec: the SAOH cost of splitting `buildData` at bucket
boundary `b` of dimension `d` — the energy/area/cone-measure weighted sum of
the two sides, normalised by the node's own energy, area and cone measure
(spec §4.3 step 3; the exact weighting is an open choice per §9). -/
def splitCost (cu : Orientation → Orientation → Orientation)
    (cm : Orientation → ℚ) (centroidBbox : BoundBox)
    (buildData : List BVHPrimitiveInfo) (nBuckets : ℕ)
    (node_energy node_M_Omega : ℚ) (node_bbox : BoundBox)
    (d : ℕ) (b : ℤ) : ℚ :=
  let cmp := CompareToBucket.make b (nBuckets : ℤ) d centroidBbox
  let l := buildData.filter cmp.op
  let r := buildData.filter (fun p => ! cmp.op p)
  (sideCost cu cm l + sideCost cu cm r) /
    (node_energy * node_bbox.area * node_M_Omega)

/-- Candidate boundaries for one axis: buckets `0 .. nBuckets - 2`. -/
def axisBuckets (nBuckets : ℕ) (d : ℕ) : List (ℕ × ℤ) :=
  (List.range (nBuckets - 1)).map (fun b => (d, (b : ℤ)))

/-- Modelled from the spec: the `(axis, bucket)` candidates examined by the
SAOH search — axes `0,1,2` in order, each skipped entirely when the centroid
box has zero extent along it (spec §4.3 step 4, §7: zero-extent axes must be
skipped rather than divide by zero). -/
def saohCandidates (centroidBbox : BoundBox) (nBuckets : ℕ) : List (ℕ × ℤ) :=
  (if 0 < centroidBbox.extent 0 then axisBuckets nBuckets 0 else []) ++
  (if 0 < centroidBbox.extent 1 then axisBuckets nBuckets 1 else []) ++
  (if 0 < centroidBbox.extent 2 then axisBuckets nBuckets 2 else [])

/-- Minimum-cost tracking step of the SAOH search: replace the best candidate
seen so far exactly when the new candidate's cost is strictly smaller. -/
def saohStep (F : ℕ × ℤ → ℚ) (best : Option (ℚ × ℕ × ℤ)) (db : ℕ × ℤ) :
    Option (ℚ × ℕ × ℤ) :=
  match best with
  | none => some (F db, db.1, db.2)
  | some best' =>
    if F db < best'.1 then some (F db, db.1, db.2) else some best'

/-- Modelled from the spec: `LightTree::split_saoh` (declared at
`light_tree.h:202`, body not in `src/`) — evaluates the SAOH cost of every
candidate `(axis, bucket)` pair and returns the minimum-cost candidate as
`some (min_cost, min_dim, min_bucket)`, or `none` when no axis is
splittable (spec §4.3 step 3). -/
def split_saoh (cu : Orientation → Orientation → Orientation)
    (cm : Orientation → ℚ) (centroidBbox : BoundBox)
    (buildData : List BVHPrimitiveInfo) (nBuckets : ℕ)
    (node_energy node_M_Omega : ℚ) (node_bbox : BoundBox) :
    Option (ℚ × ℕ × ℤ) :=
  (saohCandidates centroidBbox nBuckets).foldl
    (saohStep (fun db => splitCost cu cm centroidBbox buildData nBuckets
      node_energy node_M_Omega node_bbox db.1 db.2))
    none

/-- Modelled from the spec: the split decision of one `recursive_build` step.
Returns `none` when the node must become a leaf — range size at most
`maxPrimsInNode`, centroid box of zero extent in every axis (spec §4.3
step 2), no splittable axis, or an empty side after the bucket partition
(spec §4.3 step 4) — and otherwise `some (axis, left, right)` where the two
sides are the bucket partition of the range. -/
def splitRange (cu : Orientation → Orientation → Orientation)
    (cm : Orientation → ℚ) (maxPrimsInNode nBuckets : ℕ)
    (ps : List BVHPrimitiveInfo) :
    Option (ℕ × List BVHPrimitiveInfo × List BVHPrimitiveInfo) :=
  let cb := centroidBoundsOf ps
  if ps.length ≤ maxPrimsInNode ∨ allZeroExtent cb then none
  else
    match split_saoh cu cm cb ps nBuckets (energySum ps)
        (cm (aggregateConesWith cu (ps.map BVHPrimitiveInfo.bcone)))
        (mergedBBoxOf ps) with
    | none => none
    | some (_cost, d, b) =>
      let cmp := CompareToBucket.make b (nBuckets : ℤ) d cb
      let l := ps.filter cmp.op
      let r := ps.filter (fun p => ! cmp.op p)
      if l = [] ∨ r = [] then none else some (d, l, r)

/-- Modelled from the spec: leaf emission of `recursive_build`
(spec §4.3 step 2) — the leaf records the offset of its primitives in the
reordered output, the range size, and the range's merged aggregates, via
`BVHBuildNode::init_leaf`. -/
def mkLeafNode (cu : Orientation → Orientation → Orientation)
    (firstPrimOffset : ℕ) (ps : List BVHPrimitiveInfo) : BVHBuildNode :=
  BVHBuildNode.init_leaf firstPrimOffset ps.length (mergedBBoxOf ps)
    (aggregateConesWith cu (ps.map BVHPrimitiveInfo.bcone))
    (energySum ps) (energyVar ps)

/-- Modelled from the spec: the body of `LightTree::recursive_build`
(declared at `light_tree.h:192`, body not in `src/`), written with an explicit
recursion-depth bound `fuel` so that the definition is structurally recursive
and kernel-evaluable.  Each step either emits a leaf or splits the range per
`splitRange`, recurses on both nonempty sides, and wraps the results via
`BVHBuildNode::init_interior` carrying the merge of the children's cones and
the range's summed energy (spec §4.3 step 5, §3's build-node invariant).
Returns the node, the reordered range, and the number of nodes created.
Since each side of a split is strictly shorter than the range, `fuel =
ps.length` always suffices; the `fuel = 0` fallback is unreachable. -/
def recursive_build_go (cu : Orientation → Orientation → Orientation)
    (cm : Orientation → ℚ) (maxPrimsInNode nBuckets : ℕ) :
    ℕ → ℕ → List BVHPrimitiveInfo → BVHBuildNode × List BVHPrimitiveInfo × ℕ
  | 0, firstPrimOffset, ps => (mkLeafNode cu firstPrimOffset ps, ps, 1)
  | fuel + 1, firstPrimOffset, ps =>
    match splitRange cu cm maxPrimsInNode nBuckets ps with
    | none => (mkLeafNode cu firstPrimOffset ps, ps, 1)
    | some (d, l, r) =>
      let R0 := recursive_build_go cu cm maxPrimsInNode nBuckets fuel
        firstPrimOffset l
      let R1 := recursive_build_go cu cm maxPrimsInNode nBuckets fuel
        (firstPrimOffset + l.length) r
      (BVHBuildNode.init_interior d R0.1 R1.1 (cu R0.1.bcone R1.1.bcone)
        ps.length (energySum ps) (energyVar ps),
       R0.2.1 ++ R1.2.1, R0.2.2 + R1.2.2 + 1)

/-- Modelled from the spec: `LightTree::recursive_build` over a whole range
`ps`, with the depth bound instantiated to `ps.length` (always sufficient). -/
def recursive_build (cu : Orientation → Orientation → Orientation)
    (cm : Orientation → ℚ) (maxPrimsInNode nBuckets : ℕ)
    (firstPrimOffset : ℕ) (ps : List BVHPrimitiveInfo) :
    BVHBuildNode × List BVHPrimitiveInfo × ℕ :=
  recursive_build_go cu cm maxPrimsInNode nBuckets ps.length firstPrimOffset ps

/-- Modelled from the spec: `LightTree::flattenBVHTree` (declared at
`light_tree.h:201`, body not in `src/`) — depth-first pre-order linearisation
(spec §4.4): the node lands at index `offset`, the left child immediately
after it, and `secondChildOffset` is backpatched to the index where the right
child lands; leaves store `prim_id`/`num_emitters` with the `-1` sentinel as
`secondChildOffset`.  Returns the subtree's compact nodes and the next free
offset. -/
def flattenBVHTree : BVHBuildNode → ℕ → List CompactNode × ℕ
  | .leaf first n b c e e_var, offset =>
    ([⟨e, e_var, -1, (first : ℤ), (n : ℤ), b, c⟩], offset + 1)
  | .interior _ c0 c1 b c n e e_var, offset =>
    let F0 := flattenBVHTree c0 (offset + 1)
    let F1 := flattenBVHTree c1 F0.2
    (⟨e, e_var, (F0.2 : ℤ), -1, (n : ℤ), b, c⟩ :: (F0.1 ++ F1.1), F1.2)

/-- Model of the `LightTree` outputs: the reordered primitive array and the
compact node array (`light_tree.h:212, 218`). -/
structure LightTree where
  primitives : List Primitive
  nodes : List CompactNode

/-- `LightTree::get_primitives` (`light_tree.h:178`). -/
def LightTree.get_primitives (t : LightTree) : List Primitive :=
  t.primitives

/-- `LightTree::get_nodes` (`light_tree.h:182`). -/
def LightTree.get_nodes (t : LightTree) : List CompactNode :=
  t.nodes

/-- Modelled from the spec: the `LightTree` constructor (declared at
`light_tree.h:172`, body not in `src/`), per spec §4.5: build one
`BVHPrimitiveInfo` per input primitive from the three accessor queries
`get_bbox`/`get_bcone`/`get_energy` (the external scene contract, §6, passed
here as functions), run the recursive builder over the full range, flatten the
resulting tree, and store the reordered primitives and the compact nodes; an
empty input yields empty arrays (spec §4.3 failure semantics, §8). -/
def buildLightTree (get_bbox : Primitive → BoundBox)
    (get_bcone : Primitive → Orientation) (get_energy : Primitive → ℚ)
    (cu : Orientation → Orientation → Orientation) (cm : Orientation → ℚ)
    (nBuckets : ℕ) (prims : List Primitive) (maxPrimsInNode : ℕ) : LightTree :=
  if prims = [] then ⟨[], []⟩
  else
    let dflt : Primitive := ⟨0, 0⟩
    let buildData := (List.range prims.length).map (fun i =>
      BVHPrimitiveInfo.make i (get_bbox (prims.getD i dflt))
        (get_bcone (prims.getD i dflt)) (get_energy (prims.getD i dflt)))
    let R := recursive_build cu cm maxPrimsInNode nBuckets 0 buildData
    ⟨R.2.1.map (fun info => prims.getD info.primitiveNumber dflt),
     (flattenBVHTree R.1 0).1⟩

/-! ### Real-valued model of the cone operations

`LightTree::cone_union` and `LightTree::aggregate_bounding_cones` are declared
at `light_tree.h:198-199` but their bodies are not in `src/`; they involve the
angle between the two cone axes, so they are modelled here over `ℝ`
(`Orientation`'s `float` fields become real numbers, `float3` becomes `R3`). -/

/-- Real-valued model of `float3` for the cone functions. -/
structure R3 where
  x : ℝ
  y : ℝ
  z : ℝ

/-- Dot product of two vectors. -/
noncomputable def dotR (u v : R3) : ℝ :=
  u.x * v.x + u.y * v.y + u.z * v.z

/-- Euclidean norm of a vector. -/
noncomputable def normR (u : R3) : ℝ :=
  Real.sqrt (dotR u u)

/-- Angle between two vectors, in `[0, π]`. -/
noncomputable def angleBetween (u v : R3) : ℝ :=
  Real.arccos (dotR u v / (normR u * normR v))

/-- Real-valued model of the `Orientation` struct (`light_tree.h:31`) for the
cone-union functions. -/
structure OrientationR where
  axis : R3
  theta_o : ℝ
  theta_e : ℝ

/-- The default `Orientation` constructor (`light_tree.h:32`): zero axis,
`theta_o = 0`, `theta_e = 0`. -/
noncomputable def OrientationR.default' : OrientationR := ⟨⟨0, 0, 0⟩, 0, 0⟩

/-- The parameterized `Orientation` constructor (`light_tree.h:38`): stores its
three arguments unvalidated. -/
def OrientationR.make (a : R3) (o e : ℝ) : OrientationR := ⟨a, o, e⟩

/-- Modelled from the spec: `LightTree::cone_union` (declared at
`light_tree.h:199`, body not in `src/`) per spec §4.1 — the result keeps the
first cone's axis (a degenerate weighted combination, which the spec permits),
its `theta_o` covers the angular distance from that axis to each input cone's
extreme member normal clipped to `π`, and `theta_e` is the maximum of the two
emission angles. -/
noncomputable def cone_union (a b : OrientationR) : OrientationR :=
  let theta_d := angleBetween a.axis b.axis
  ⟨a.axis, min Real.pi (max a.theta_o (theta_d + b.theta_o)),
   max a.theta_e b.theta_e⟩

/-- Modelled from the spec: `LightTree::aggregate_bounding_cones` (declared at
`light_tree.h:198`, body not in `src/`) — repeated pairwise union over a
sequence of cones (spec §4.1). -/
noncomputable def aggregate_bounding_cones : List OrientationR → OrientationR
  | [] => OrientationR.default'
  | c :: cs => cs.foldl cone_union c

/-- Both half-angles of a cone lie within `[0, π]`, the invariant of spec §3. -/
def inRangeCone (c : OrientationR) : Prop :=
  0 ≤ c.theta_o ∧ c.theta_o ≤ Real.pi ∧ 0 ≤ c.theta_e ∧ c.theta_e ≤ Real.pi

/-- Well-formedness of a build-time node tree, the invariant of spec §3: an
interior node's bbox, cone and energy are exactly the merges (bounding-box
merge, cone union, energy sum) of its two children's, and a leaf counts at
least one emitter. -/
def WellFormedNode (cu : Orientation → Orientation → Orientation) :
    BVHBuildNode → Prop
  | .leaf _ n _ _ _ _ => 1 ≤ n
  | .interior _ c0 c1 b c _ e _ =>
      b = merge c0.bbox c1.bbox ∧ c = cu c0.bcone c1.bcone ∧
      e = c0.energy + c1.energy ∧ WellFormedNode cu c0 ∧ WellFormedNode cu c1

/-- Concrete cone union used to instantiate the parametric builder on
concrete inputs: keeps the first cone. -/
def cuFirst : Orientation → Orientation → Orientation := fun a _ => a

/-- Concrete cone measure used to instantiate the parametric builder on
concrete inputs: the constant one. -/
def cmUnit : Orientation → ℚ := fun _ => 1

/-- A point-light build record at position `(px, 0, 0)` with energy `e`. -/
def ptInfo (n : ℕ) (px : ℚ) (e : ℚ) : BVHPrimitiveInfo :=
  BVHPrimitiveInfo.make n ⟨⟨px, 0, 0⟩, ⟨px, 0, 0⟩⟩ Orientation.default' e

/-- A two-leaf build tree, a concrete input for the flattener. -/
def wTree : BVHBuildNode :=
  BVHBuildNode.init_interior 0
    (BVHBuildNode.init_leaf 0 1 ⟨⟨0, 0, 0⟩, ⟨1, 1, 1⟩⟩ Orientation.default' 1 0)
    (BVHBuildNode.init_leaf 1 1 ⟨⟨2, 2, 2⟩, ⟨3, 3, 3⟩⟩ Orientation.default' 1 0)
    Orientation.default' 2 2 0

/-! ### Basic facts about the split step -/

/-- A successful split partitions the range into two nonempty sides whose
concatenation is a permutation of the range. -/
theorem splitRange_some (cu : Orientation → Orientation → Orientation)
    (cm : Orientation → ℚ) (k nB : ℕ) (ps : List BVHPrimitiveInfo)
    (d : ℕ) (l r : List BVHPrimitiveInfo)
    (h : splitRange cu cm k nB ps = some (d, l, r)) :
    List.Perm (l ++ r) ps ∧ l ≠ [] ∧ r ≠ [] := by
  simp only [splitRange] at h
  split at h
  · exact absurd h (by simp)
  · split at h
    · exact absurd h (by simp)
    · split at h
      · exact absurd h (by simp)
      · rename_i hne
        push_neg at hne
        simp only [Option.some.injEq, Prod.mk.injEq] at h
        obtain ⟨-, hl, hr⟩ := h
        subst hl; subst hr
        exact ⟨List.filter_append_perm _ ps, hne.1, hne.2⟩

/-- The two sides of a successful split together have the length of the
range, and each is strictly shorter than it. -/
theorem splitRange_lengths (cu : Orientation → Orientation → Orientation)
    (cm : Orientation → ℚ) (k nB : ℕ) (ps : List BVHPrimitiveInfo)
    (d : ℕ) (l r : List BVHPrimitiveInfo)
    (h : splitRange cu cm k nB ps = some (d, l, r)) :
    l.length + r.length = ps.length ∧
      l.length < ps.length ∧ r.length < ps.length := by
  obtain ⟨hperm, hl, hr⟩ := splitRange_some cu cm k nB ps d l r h
  have hlen : l.length + r.length = ps.length := by
    have := hperm.length_eq
    simpa using this
  have hl1 : 0 < l.length := List.length_pos.mpr hl
  have hr1 : 0 < r.length := List.length_pos.mpr hr
  exact ⟨hlen, by omega, by omega⟩

/-! ### The reordered output is a permutation of the input range -/

/-- The reordered range returned by `recursive_build_go` is a permutation of
its input range, for every fuel value. -/
theorem recursive_build_go_perm (cu : Orientation → Orientation → Orientation)
    (cm : Orientation → ℚ) (k nB : ℕ) :
    ∀ (fuel fo : ℕ) (ps : List BVHPrimitiveInfo),
      List.Perm (recursive_build_go cu cm k nB fuel fo ps).2.1 ps
  | 0, fo, ps => by simp [recursive_build_go]
  | fuel + 1, fo, ps => by
    cases h : splitRange cu cm k nB ps with
    | none => simp [recursive_build_go, h]
    | some dlr =>
      obtain ⟨d, l, r⟩ := dlr
      have hfacts := splitRange_some cu cm k nB ps d l r h
      simp only [recursive_build_go, h]
      exact ((recursive_build_go_perm cu cm k nB fuel fo l).append
        (recursive_build_go_perm cu cm k nB fuel (fo + l.length) r)).trans
        hfacts.1

/-- Looking every index of a list up again reproduces the list. -/
theorem range_map_getD (dflt : α) (l : List α) :
    (List.range l.length).map (fun i => l.getD i dflt) = l := by
  apply List.ext_getElem
  · simp
  · intro i h1 h2
    simp [List.getD_eq_getElem l dflt h2, List.getElem?_eq_getElem h2]

/-! ### Claim C1 -/

/-- C1: for every input primitive list, the reordered primitive array exposed
by the `LightTree` after construction (via `get_primitives`) is a permutation
of the input list — same length and same multiset of `Primitive` references —
whatever scene accessors, cone union, cone measure, bucket count and leaf
threshold the build uses. -/
theorem c1_get_primitives_perm (get_bbox : Primitive → BoundBox)
    (get_bcone : Primitive → Orientation) (get_energy : Primitive → ℚ)
    (cu : Orientation → Orientation → Orientation) (cm : Orientation → ℚ)
    (nB k : ℕ) (prims : List Primitive) :
    List.Perm
      ((buildLightTree get_bbox get_bcone get_energy cu cm nB prims
        k).get_primitives) prims ∧
    ((buildLightTree get_bbox get_bcone get_energy cu cm nB prims
        k).get_primitives).length = prims.length := by
  have hperm : List.Perm
      ((buildLightTree get_bbox get_bcone get_energy cu cm nB prims
        k).get_primitives) prims := by
    by_cases hp : prims = []
    · subst hp
      simp [buildLightTree, LightTree.get_primitives]
    · simp only [buildLightTree, LightTree.get_primitives, if_neg hp,
        recursive_build]
      refine ((recursive_build_go_perm cu cm k nB _ 0 _).map _).trans ?_
      rw [List.map_map]
      have hcomp :
          ((fun info : BVHPrimitiveInfo =>
              prims.getD info.primitiveNumber (⟨0, 0⟩ : Primitive)) ∘
            fun i => BVHPrimitiveInfo.make i
              (get_bbox (prims.getD i (⟨0, 0⟩ : Primitive)))
              (get_bcone (prims.getD i (⟨0, 0⟩ : Primitive)))
              (get_energy (prims.getD i (⟨0, 0⟩ : Primitive)))) =
            fun i => prims.getD i (⟨0, 0⟩ : Primitive) := rfl
      rw [hcomp, range_map_getD]
  exact ⟨hperm, hperm.length_eq⟩

/-! ### Claim C2 -/

/-- Flattening returns, as its second component, the input offset plus the
number of compact nodes it produced. -/
theorem flatten_snd_eq (n : BVHBuildNode) :
    ∀ offset, (flattenBVHTree n offset).2 =
      offset + (flattenBVHTree n offset).1.length := by
  induction n with
  | leaf first nn b c e ev =>
    intro offset
    simp [flattenBVHTree]
  | interior ax c0 c1 b c nn e ev ih0 ih1 =>
    intro offset
    simp only [flattenBVHTree, List.length_cons, List.length_append]
    rw [ih1, ih0]
    omega

/-- Flattening always produces at least one compact node. -/
theorem flatten_len_pos (n : BVHBuildNode) (offset : ℕ) :
    0 < (flattenBVHTree n offset).1.length := by
  cases n <;> simp [flattenBVHTree]

/-- In the compact array produced by flattening a subtree at `offset`, every
interior node at relative index `i` stores a right-child offset strictly
beyond the absolute index of its left child, `offset + i + 1`. -/
theorem flatten_forward (n : BVHBuildNode) :
    ∀ (offset i : ℕ) (h : i < (flattenBVHTree n offset).1.length),
      (flattenBVHTree n offset).1[i].secondChildOffset ≠ -1 →
      (offset : ℤ) + i + 1 < (flattenBVHTree n offset).1[i].secondChildOffset := by
  induction n with
  | leaf first nn b c e ev =>
    intro offset i h hint
    have hi : i = 0 := by
      simp only [flattenBVHTree, List.length_singleton] at h
      omega
    subst hi
    simp [flattenBVHTree] at hint
  | interior ax c0 c1 b c nn e ev ih0 ih1 =>
    intro offset i h hint
    have hsnd := flatten_snd_eq c0 (offset + 1)
    have hpos0 := flatten_len_pos c0 (offset + 1)
    have ih0' := ih0 (offset + 1)
    rcases hE0 : flattenBVHTree c0 (offset + 1) with ⟨L0, o1⟩
    rw [hE0] at hsnd hpos0 ih0'
    simp only at hsnd hpos0 ih0'
    have ih1' := ih1 o1
    rcases hE1 : flattenBVHTree c1 o1 with ⟨L1, o2⟩
    rw [hE1] at ih1'
    simp only at ih1'
    simp only [flattenBVHTree, hE0, hE1, List.length_cons, List.length_append]
      at h hint ⊢
    match i with
    | 0 =>
      simp only [List.getElem_cons_zero] at hint ⊢
      push_cast
      omega
    | j + 1 =>
      simp only [List.getElem_cons_succ] at hint ⊢
      by_cases hj : j < L0.length
      · rw [List.getElem_append_left hj] at hint ⊢
        have := ih0' j hj hint
        push_cast at this ⊢
        omega
      · push_neg at hj
        have hj2 : j - L0.length < L1.length := by omega
        rw [List.getElem_append_right hj] at hint ⊢
        have := ih1' (j - L0.length) hj2 hint
        have hcast : ((j - L0.length : ℕ) : ℤ) =
            (j : ℤ) - (L0.length : ℤ) := by omega
        rw [hcast, hsnd] at this
        push_cast at this ⊢
        omega

/-- C2: in every compact node array produced by flattening, every interior
`CompactNode` (one whose `secondChildOffset` is not the `-1` leaf sentinel) at
array index `i` has `secondChildOffset` strictly greater than `i + 1`: child
references only point forward, with the left child at index `i + 1`. -/
theorem c2_forward_offsets (root : BVHBuildNode) (i : ℕ)
    (h : i < (flattenBVHTree root 0).1.length)
    (hint : (flattenBVHTree root 0).1[i].secondChildOffset ≠ -1) :
    (i : ℤ) + 1 < (flattenBVHTree root 0).1[i].secondChildOffset := by
  have := flatten_forward root 0 i h hint
  simpa using this

/-! ### Claim C3 -/

/-- Every node built by `recursive_build_go` stores the summed energy of its
input range. -/
theorem recursive_build_go_energy (cu : Orientation → Orientation → Orientation)
    (cm : Orientation → ℚ) (k nB fuel fo : ℕ) (ps : List BVHPrimitiveInfo) :
    (recursive_build_go cu cm k nB fuel fo ps).1.energy = energySum ps := by
  match fuel with
  | 0 =>
    simp [recursive_build_go, mkLeafNode, BVHBuildNode.init_leaf,
      BVHBuildNode.energy]
  | fuel + 1 =>
    cases h : splitRange cu cm k nB ps with
    | none =>
      simp [recursive_build_go, h, mkLeafNode, BVHBuildNode.init_leaf,
        BVHBuildNode.energy]
    | some dlr =>
      obtain ⟨d, l, r⟩ := dlr
      simp [recursive_build_go, h, BVHBuildNode.init_interior,
        BVHBuildNode.energy]

/-- Summed energies add across a split of a range. -/
theorem energySum_of_perm (l r ps : List BVHPrimitiveInfo)
    (h : List.Perm (l ++ r) ps) :
    energySum l + energySum r = energySum ps := by
  unfold energySum
  rw [← List.sum_append, ← List.map_append]
  exact (h.map _).sum_eq

/-- The tree built by `recursive_build_go` over a nonempty range is
well-formed, for every fuel value. -/
theorem recursive_build_go_wf (cu : Orientation → Orientation → Orientation)
    (cm : Orientation → ℚ) (k nB : ℕ) :
    ∀ (fuel fo : ℕ) (ps : List BVHPrimitiveInfo), ps ≠ [] →
      WellFormedNode cu (recursive_build_go cu cm k nB fuel fo ps).1
  | 0, fo, ps, hne => by
    simp only [recursive_build_go, mkLeafNode, BVHBuildNode.init_leaf,
      WellFormedNode]
    exact List.length_pos.mpr hne
  | fuel + 1, fo, ps, hne => by
    cases h : splitRange cu cm k nB ps with
    | none =>
      simp only [recursive_build_go, h, mkLeafNode, BVHBuildNode.init_leaf,
        WellFormedNode]
      exact List.length_pos.mpr hne
    | some dlr =>
      obtain ⟨d, l, r⟩ := dlr
      obtain ⟨hperm, hl, hr⟩ := splitRange_some cu cm k nB ps d l r h
      simp only [recursive_build_go, h]
      have he0 := recursive_build_go_energy cu cm k nB fuel fo l
      have he1 := recursive_build_go_energy cu cm k nB fuel (fo + l.length) r
      exact ⟨rfl, rfl,
        by rw [he0, he1]; exact (energySum_of_perm l r ps hperm).symm,
        recursive_build_go_wf cu cm k nB fuel fo l hl,
        recursive_build_go_wf cu cm k nB fuel (fo + l.length) r hr⟩

/-- C3: every `BVHBuildNode` in the build-time tree produced by
`recursive_build` over a nonempty range is well-formed — each interior node's
bbox, cone and energy are exactly the merge of its two children's
corresponding aggregates, and each leaf has `num_emitters ≥ 1`. -/
theorem c3_build_tree_wellformed
    (cu : Orientation → Orientation → Orientation) (cm : Orientation → ℚ)
    (k nB fo : ℕ) (ps : List BVHPrimitiveInfo) (h : ps ≠ []) :
    WellFormedNode cu (recursive_build cu cm k nB fo ps).1 :=
  recursive_build_go_wf cu cm k nB ps.length fo ps h

/-! ### Claim C9 (amended) -/

/-- When the split step declines, the build emits a single leaf, for every
fuel value. -/
theorem recursive_build_go_leaf (cu : Orientation → Orientation → Orientation)
    (cm : Orientation → ℚ) (k nB fo : ℕ) (ps : List BVHPrimitiveInfo)
    (h : splitRange cu cm k nB ps = none) :
    ∀ fuel, recursive_build_go cu cm k nB fuel fo ps =
      (mkLeafNode cu fo ps, ps, 1)
  | 0 => by simp [recursive_build_go]
  | fuel + 1 => by simp [recursive_build_go, h]

/-- The builder creates at most `2 n - 1` nodes over a range of `n ≥ 1`
build records, for every fuel value. -/
theorem recursive_build_go_count (cu : Orientation → Orientation → Orientation)
    (cm : Orientation → ℚ) (k nB : ℕ) :
    ∀ (fuel fo : ℕ) (ps : List BVHPrimitiveInfo), ps ≠ [] →
      (recursive_build_go cu cm k nB fuel fo ps).2.2 ≤ 2 * ps.length - 1
  | 0, fo, ps, hne => by
    have := List.length_pos.mpr hne
    simp only [recursive_build_go]
    omega
  | fuel + 1, fo, ps, hne => by
    cases h : splitRange cu cm k nB ps with
    | none =>
      have := List.length_pos.mpr hne
      simp only [recursive_build_go, h]
      omega
    | some dlr =>
      obtain ⟨d, l, r⟩ := dlr
      obtain ⟨hlen, -, -⟩ := splitRange_lengths cu cm k nB ps d l r h
      obtain ⟨-, hl, hr⟩ := splitRange_some cu cm k nB ps d l r h
      have hc0 := recursive_build_go_count cu cm k nB fuel fo l hl
      have hc1 := recursive_build_go_count cu cm k nB fuel (fo + l.length) r hr
      have hp0 := List.length_pos.mpr hl
      have hp1 := List.length_pos.mpr hr
      simp only [recursive_build_go, h]
      omega

/-- C9 (amended): for every input of `N ≥ 1` build records, whatever the leaf
threshold, the total number of nodes produced by `recursive_build` is at most
`2 N - 1`. -/
theorem c9_amended_node_bound
    (cu : Orientation → Orientation → Orientation) (cm : Orientation → ℚ)
    (k nB fo : ℕ) (ps : List BVHPrimitiveInfo) (h : ps ≠ []) :
    (recursive_build cu cm k nB fo ps).2.2 ≤ 2 * ps.length - 1 :=
  recursive_build_go_count cu cm k nB ps.length fo ps h

/-! ### Claim C4 -/

/-- C4: the builder is total — building from zero primitives yields an empty
node array and an empty primitive array, and building from one primitive
yields exactly one `CompactNode`, a leaf (its `secondChildOffset` is the `-1`
sentinel), whose energy is that primitive's energy and whose world bounds are
that primitive's bounding box, whatever accessors and parameters are used. -/
theorem c4_empty_and_singleton (gb : Primitive → BoundBox)
    (gc : Primitive → Orientation) (ge : Primitive → ℚ)
    (cu : Orientation → Orientation → Orientation) (cm : Orientation → ℚ)
    (nB k : ℕ) (p : Primitive) :
    (buildLightTree gb gc ge cu cm nB [] k).get_nodes = [] ∧
    (buildLightTree gb gc ge cu cm nB [] k).get_primitives = [] ∧
    (buildLightTree gb gc ge cu cm nB [p] k).get_nodes.length = 1 ∧
    ((buildLightTree gb gc ge cu cm nB [p] k).get_nodes.getD 0
      default).secondChildOffset = -1 ∧
    ((buildLightTree gb gc ge cu cm nB [p] k).get_nodes.getD 0
      default).energy = ge p ∧
    ((buildLightTree gb gc ge cu cm nB [p] k).get_nodes.getD 0
      default).bounds_w = gb p := by
  have hz : allZeroExtent
      (centroidBoundsOf [BVHPrimitiveInfo.make 0 (gb p) (gc p) (ge p)]) := by
    simp [centroidBoundsOf, allZeroExtent, BoundBox.extent]
  have hsr : splitRange cu cm k nB
      [BVHPrimitiveInfo.make 0 (gb p) (gc p) (ge p)] = none := by
    simp only [splitRange, if_pos (Or.inr hz)]
  have hnodes : (buildLightTree gb gc ge cu cm nB [p] k).get_nodes =
      [⟨ge p, 0, -1, 0, 1, gb p, gc p⟩] := by
    simp only [buildLightTree, LightTree.get_nodes,
      if_neg (List.cons_ne_nil p [])]
    have hbd : (List.range ([p] : List Primitive).length).map (fun i =>
        BVHPrimitiveInfo.make i (gb (([p] : List Primitive).getD i ⟨0, 0⟩))
          (gc (([p] : List Primitive).getD i ⟨0, 0⟩))
          (ge (([p] : List Primitive).getD i ⟨0, 0⟩))) =
        [BVHPrimitiveInfo.make 0 (gb p) (gc p) (ge p)] := by
      simp [List.range_succ]
    rw [hbd, recursive_build, recursive_build_go_leaf cu cm k nB 0 _ hsr]
    simp [flattenBVHTree, mkLeafNode, BVHBuildNode.init_leaf, energySum,
      energyVar, energySqSum, mergedBBoxOf, aggregateConesWith,
      BVHPrimitiveInfo.make, sub_self]
  refine ⟨by simp [buildLightTree, LightTree.get_nodes],
    by simp [buildLightTree, LightTree.get_primitives], ?_, ?_, ?_, ?_⟩ <;>
    rw [hnodes] <;> simp [List.getD]

/-! ### Claim C5 -/

/-- C5: for every five build records sharing an identical centroid, with
`maxPrimsInNode = 2`, the builder terminates with a single leaf containing
all five primitives (the zero-extent centroid-box fallback forces the leaf):
one node total, `num_emitters = 5`, and the output range is the input range. -/
theorem c5_colocated_single_leaf
    (cu : Orientation → Orientation → Orientation) (cm : Orientation → ℚ)
    (nB : ℕ) (p1 p2 p3 p4 p5 : BVHPrimitiveInfo)
    (h2 : p2.centroid = p1.centroid) (h3 : p3.centroid = p1.centroid)
    (h4 : p4.centroid = p1.centroid) (h5 : p5.centroid = p1.centroid) :
    (recursive_build cu cm 2 nB 0 [p1, p2, p3, p4, p5]).1.is_leaf = true ∧
    (recursive_build cu cm 2 nB 0 [p1, p2, p3, p4, p5]).1.num_emitters = 5 ∧
    (recursive_build cu cm 2 nB 0 [p1, p2, p3, p4, p5]).2.1 =
      [p1, p2, p3, p4, p5] ∧
    (recursive_build cu cm 2 nB 0 [p1, p2, p3, p4, p5]).2.2 = 1 := by
  have hz : allZeroExtent (centroidBoundsOf [p1, p2, p3, p4, p5]) := by
    simp [centroidBoundsOf, h2, h3, h4, h5, grow, fmin, fmax, allZeroExtent,
      BoundBox.extent, float3.nth, min_self, max_self, sub_self]
  have hsr : splitRange cu cm 2 nB [p1, p2, p3, p4, p5] = none := by
    simp only [splitRange, if_pos (Or.inr hz)]
  rw [recursive_build, recursive_build_go_leaf cu cm 2 nB 0 _ hsr]
  simp [mkLeafNode, BVHBuildNode.init_leaf, BVHBuildNode.is_leaf,
    BVHBuildNode.num_emitters]

/-! ### Claim C6 -/

/-- Every candidate the SAOH search examines lies on an axis along which the
centroid box has strictly positive extent. -/
theorem saohCandidates_pos_extent (cb : BoundBox) (nB : ℕ) :
    ∀ db ∈ saohCandidates cb nB, 0 < cb.extent db.1 := by
  intro db hdb
  have key : ∀ d : ℕ,
      db ∈ (if 0 < cb.extent d then axisBuckets nB d else []) →
      0 < cb.extent db.1 := by
    intro d h
    split at h
    · rename_i hpos
      simp only [axisBuckets, List.mem_map, List.mem_range] at h
      obtain ⟨b, -, hb⟩ := h
      rw [← hb]
      exact hpos
    · simp at h
  simp only [saohCandidates, List.mem_append] at hdb
  rcases hdb with (h | h) | h
  · exact key 0 h
  · exact key 1 h
  · exact key 2 h

/-- The dimension reported by the minimum-cost fold comes either from the
candidate list or from the accumulator. -/
theorem foldl_saohStep_dim (F : ℕ × ℤ → ℚ) (P : ℕ → Prop) :
    ∀ (cands : List (ℕ × ℤ)) (acc : Option (ℚ × ℕ × ℤ)),
      (∀ db ∈ cands, P db.1) →
      (∀ c d b, acc = some (c, d, b) → P d) →
      ∀ c d b, cands.foldl (saohStep F) acc = some (c, d, b) → P d
  | [], acc, _hc, ha, c, d, b, h => ha c d b h
  | db0 :: t, acc, hc, ha, c, d, b, h => by
    refine foldl_saohStep_dim F P t (saohStep F acc db0)
      (fun db hdb => hc db (List.mem_cons_of_mem _ hdb)) ?_ c d b h
    intro c' d' b' hacc
    match hacc2 : acc with
    | none =>
      simp only [saohStep, hacc2, Option.some.injEq, Prod.mk.injEq] at hacc
      rw [← hacc.2.1]
      exact hc db0 (List.mem_cons_self _ _)
    | some best' =>
      simp only [saohStep] at hacc
      split at hacc
      · simp only [Option.some.injEq, Prod.mk.injEq] at hacc
        rw [← hacc.2.1]
        exact hc db0 (List.mem_cons_self _ _)
      · simp only [Option.some.injEq] at hacc
        exact ha c' d' b' (by rw [hacc])

/-- C6: the bucket-index computation never divides by a zero centroid extent —
every axis the split search considers has strictly positive centroid extent
(zero-extent axes are skipped), and in particular the axis of the chosen
minimum-cost split has strictly positive extent, so the `CompareToBucket`
divisor `centroidBbox.max[dim] - centroidBbox.min[dim]` is nonzero for every
comparator the build constructs. -/
theorem c6_split_skips_zero_extent
    (cu : Orientation → Orientation → Orientation) (cm : Orientation → ℚ)
    (cb : BoundBox) (ps : List BVHPrimitiveInfo) (nB : ℕ)
    (node_energy node_M_Omega : ℚ) (node_bbox : BoundBox) :
    (∀ db ∈ saohCandidates cb nB, 0 < cb.extent db.1) ∧
    (∀ c d b, split_saoh cu cm cb ps nB node_energy node_M_Omega node_bbox =
      some (c, d, b) → 0 < cb.extent d) := by
  refine ⟨saohCandidates_pos_extent cb nB, ?_⟩
  intro c d b h
  exact foldl_saohStep_dim _ (fun d => 0 < cb.extent d) _ none
    (saohCandidates_pos_extent cb nB) (by intro c' d' b' h'; simp at h')
    c d b h

/-! ### Claim C10 -/

/-- C10: for every `CompareToBucket` functor over a centroid box with strictly
positive extent along its dimension and positive bucket count, and every
record whose centroid along that dimension lies inside the box, the computed
bucket index lies in `[0, nBuckets - 1]` (a centroid exactly at the box
maximum would yield `nBuckets` and is clamped to `nBuckets - 1`), and
`operator()` returns true exactly when that bucket index is at most
`splitBucket`. -/
theorem c10_bucket_index_bounds (split num : ℤ) (d : ℕ) (b : BoundBox)
    (p : BVHPrimitiveInfo) (hnum : 0 < num)
    (hext : 0 < b.max.nth d - b.min.nth d)
    (hlo : b.min.nth d ≤ p.centroid.nth d)
    (hhi : p.centroid.nth d ≤ b.max.nth d) :
    0 ≤ (CompareToBucket.make split num d b).bucketFor p ∧
    (CompareToBucket.make split num d b).bucketFor p ≤ num - 1 ∧
    ((CompareToBucket.make split num d b).op p = true ↔
      (CompareToBucket.make split num d b).bucketFor p ≤ split) := by
  have hnum' : (0 : ℚ) ≤ (num : ℚ) := by exact_mod_cast hnum.le
  have hq0 : 0 ≤ (num : ℚ) * (p.centroid.nth d - b.min.nth d) *
      (1 / (b.max.nth d - b.min.nth d)) := by
    have h2 : (0 : ℚ) ≤ p.centroid.nth d - b.min.nth d := by linarith
    have h3 : (0 : ℚ) ≤ 1 / (b.max.nth d - b.min.nth d) := by positivity
    exact mul_nonneg (mul_nonneg hnum' h2) h3
  have hq1 : (num : ℚ) * (p.centroid.nth d - b.min.nth d) *
      (1 / (b.max.nth d - b.min.nth d)) ≤ (num : ℚ) := by
    rw [mul_assoc, one_div, ← div_eq_mul_inv]
    have h1 : (p.centroid.nth d - b.min.nth d) /
        (b.max.nth d - b.min.nth d) ≤ 1 := by
      rw [div_le_one hext]
      linarith
    calc (num : ℚ) * ((p.centroid.nth d - b.min.nth d) /
          (b.max.nth d - b.min.nth d))
        ≤ (num : ℚ) * 1 := mul_le_mul_of_nonneg_left h1 hnum'
      _ = (num : ℚ) := mul_one _
  have hfl0 : 0 ≤ ⌊(num : ℚ) * (p.centroid.nth d - b.min.nth d) *
      (1 / (b.max.nth d - b.min.nth d))⌋ := Int.floor_nonneg.mpr hq0
  have hfl1 : ⌊(num : ℚ) * (p.centroid.nth d - b.min.nth d) *
      (1 / (b.max.nth d - b.min.nth d))⌋ ≤ num := by
    have := Int.floor_le_floor hq1
    simpa using this
  have hbf : (CompareToBucket.make split num d b).bucketFor p =
      if ⌊(num : ℚ) * (p.centroid.nth d - b.min.nth d) *
          (1 / (b.max.nth d - b.min.nth d))⌋ = num then num - 1
      else ⌊(num : ℚ) * (p.centroid.nth d - b.min.nth d) *
          (1 / (b.max.nth d - b.min.nth d))⌋ := by
    simp only [CompareToBucket.bucketFor, CompareToBucket.make, truncQ,
      if_pos hq0]
  refine ⟨?_, ?_, ?_⟩
  · rw [hbf]
    split <;> omega
  · rw [hbf]
    split <;> omega
  · simp [CompareToBucket.op, CompareToBucket.make]

/-! ### Claims C7 and C8 -/

/-- A vector's dot product with itself is nonnegative. -/
theorem dotR_self_nonneg (u : R3) : 0 ≤ dotR u u := by
  unfold dotR
  have hx := mul_self_nonneg u.x
  have hy := mul_self_nonneg u.y
  have hz := mul_self_nonneg u.z
  linarith

/-- A nonzero vector has nonzero dot product with itself. -/
theorem dotR_self_ne_zero (u : R3) (h : u ≠ ⟨0, 0, 0⟩) : dotR u u ≠ 0 := by
  intro h0
  apply h
  obtain ⟨x, y, z⟩ := u
  simp only [dotR] at h0
  have hx : x = 0 := by
    nlinarith [mul_self_nonneg x, mul_self_nonneg y, mul_self_nonneg z]
  have hy : y = 0 := by
    nlinarith [mul_self_nonneg x, mul_self_nonneg y, mul_self_nonneg z]
  have hz : z = 0 := by
    nlinarith [mul_self_nonneg x, mul_self_nonneg y, mul_self_nonneg z]
  simp [hx, hy, hz]

/-- The angle between a nonzero vector and itself is zero. -/
theorem angleBetween_self (u : R3) (h : u ≠ ⟨0, 0, 0⟩) :
    angleBetween u u = 0 := by
  unfold angleBetween normR
  rw [Real.mul_self_sqrt (dotR_self_nonneg u),
    div_self (dotR_self_ne_zero u h), Real.arccos_one]

/-- C8: for every pair of cones whose axes are actual directions (nonzero),
`cone_union a b` contains both inputs — its `theta_o` is at least the angular
distance from the new axis to each input's axis plus that input's `theta_o`,
clipped to `π`, and its `theta_e` equals `max a.theta_e b.theta_e`. -/
theorem c8_cone_union_covers (a b : OrientationR)
    (ha : a.axis ≠ ⟨0, 0, 0⟩) :
    min Real.pi (angleBetween (cone_union a b).axis a.axis + a.theta_o) ≤
      (cone_union a b).theta_o ∧
    min Real.pi (angleBetween (cone_union a b).axis b.axis + b.theta_o) ≤
      (cone_union a b).theta_o ∧
    (cone_union a b).theta_e = max a.theta_e b.theta_e := by
  refine ⟨?_, ?_, rfl⟩
  · simp only [cone_union]
    rw [angleBetween_self a.axis ha, zero_add]
    exact min_le_min (le_refl _) (le_max_left _ _)
  · simp only [cone_union]
    exact min_le_min (le_refl _) (le_max_right _ _)

/-- The union of two cones with half-angles in `[0, π]` has half-angles in
`[0, π]`. -/
theorem cone_union_inRange (a b : OrientationR) (hA : inRangeCone a)
    (hB : inRangeCone b) : inRangeCone (cone_union a b) := by
  obtain ⟨ha1, ha2, ha3, ha4⟩ := hA
  obtain ⟨hb1, hb2, hb3, hb4⟩ := hB
  have hpi : (0 : ℝ) ≤ Real.pi := Real.pi_nonneg
  refine ⟨?_, ?_, ?_, ?_⟩
  · exact le_min hpi (le_trans ha1 (le_max_left _ _))
  · exact min_le_left _ _
  · exact le_trans ha3 (le_max_left _ _)
  · exact max_le ha4 hb4

/-- Folding cone unions over in-range cones stays in range. -/
theorem foldl_cone_union_inRange :
    ∀ (l : List OrientationR) (acc : OrientationR), inRangeCone acc →
      (∀ c ∈ l, inRangeCone c) → inRangeCone (l.foldl cone_union acc)
  | [], _acc, hacc, _ => hacc
  | c :: t, acc, hacc, hl =>
    foldl_cone_union_inRange t (cone_union acc c)
      (cone_union_inRange acc c hacc (hl c (List.mem_cons_self _ _)))
      (fun x hx => hl x (List.mem_cons_of_mem _ hx))

/-- C7 (amended): the default `Orientation` constructor produces half-angles
in `[0, π]`; the parameterized constructor does so exactly when its angle
arguments are in `[0, π]` (it stores them unvalidated); and `cone_union` and
`aggregate_bounding_cones` produce half-angles in `[0, π]` whenever every
input cone's half-angles are in `[0, π]`. -/
theorem c7_amended_cone_ranges :
    inRangeCone OrientationR.default' ∧
    (∀ (ax : R3) (o e : ℝ), 0 ≤ o → o ≤ Real.pi → 0 ≤ e → e ≤ Real.pi →
      inRangeCone (OrientationR.make ax o e)) ∧
    (∀ a b : OrientationR, inRangeCone a → inRangeCone b →
      inRangeCone (cone_union a b)) ∧
    (∀ l : List OrientationR, (∀ c ∈ l, inRangeCone c) →
      inRangeCone (aggregate_bounding_cones l)) := by
  refine ⟨?_, ?_, cone_union_inRange, ?_⟩
  · exact ⟨le_refl 0, Real.pi_nonneg, le_refl 0, Real.pi_nonneg⟩
  · intro ax o e h1 h2 h3 h4
    exact ⟨h1, h2, h3, h4⟩
  · intro l hl
    match l with
    | [] => exact ⟨le_refl 0, Real.pi_nonneg, le_refl 0, Real.pi_nonneg⟩
    | c :: t =>
      exact foldl_cone_union_inRange t c (hl c (List.mem_cons_self _ _))
        (fun x hx => hl x (List.mem_cons_of_mem _ hx))

/-- C7 counterexample: the parameterized `Orientation` constructor
(`light_tree.h:38`) stores its arguments unvalidated, so it can produce a cone
whose `theta_o` exceeds `π` — the claim's range invariant fails for the
constructors as stated. -/
theorem c7_counterexample_ctor_out_of_range :
    Real.pi < (OrientationR.make ⟨0, 0, 1⟩ 4 4).theta_o := by
  have h := Real.pi_lt_d2
  simp only [OrientationR.make]
  linarith

/-! ### Witnesses and counterexamples on concrete inputs

The four arithmetic operations on `ℚ` are `@[irreducible]` in the ambient
library, which blocks `decide`'s evaluation; they are made semireducible
locally so that the model can be evaluated on concrete inputs. -/

section ConcreteEvaluation

attribute [local semireducible] Rat.add Rat.mul Rat.inv Rat.sub

/-- C2 witness: flattening a concrete two-leaf tree puts an interior node at
index 0 whose right-child offset 2 is strictly beyond index 1. -/
theorem c2_witness :
    0 < (flattenBVHTree wTree 0).1.length ∧
    (0 : ℤ) + 1 <
      ((flattenBVHTree wTree 0).1.getD 0 default).secondChildOffset := by
  have h : 0 < (flattenBVHTree wTree 0).1.length := by decide
  have hint0 : ((flattenBVHTree wTree 0).1.getD 0 default).secondChildOffset ≠
      -1 := by decide
  rw [List.getD_eq_getElem _ _ h] at hint0
  have hmain := c2_forward_offsets wTree 0 h hint0
  refine ⟨h, ?_⟩
  rw [List.getD_eq_getElem _ _ h]
  simpa using hmain

/-- C3 witness: the build over one concrete record is well-formed. -/
theorem c3_witness :
    ([ptInfo 0 0 1] : List BVHPrimitiveInfo) ≠ [] ∧
    WellFormedNode cuFirst
      (recursive_build cuFirst cmUnit 4 4 0 [ptInfo 0 0 1]).1 := by
  have h : ([ptInfo 0 0 1] : List BVHPrimitiveInfo) ≠ [] := by simp
  exact ⟨h, c3_build_tree_wellformed cuFirst cmUnit 4 4 0 [ptInfo 0 0 1] h⟩

/-- C5 witness: five concrete co-located point lights with
`maxPrimsInNode = 2` build into a single node. -/
theorem c5_witness :
    (ptInfo 1 3 1).centroid = (ptInfo 0 3 1).centroid ∧
    (ptInfo 2 3 1).centroid = (ptInfo 0 3 1).centroid ∧
    (ptInfo 3 3 1).centroid = (ptInfo 0 3 1).centroid ∧
    (ptInfo 4 3 1).centroid = (ptInfo 0 3 1).centroid ∧
    (recursive_build cuFirst cmUnit 2 4 0
      [ptInfo 0 3 1, ptInfo 1 3 1, ptInfo 2 3 1, ptInfo 3 3 1,
        ptInfo 4 3 1]).2.2 = 1 := by
  have h2 : (ptInfo 1 3 1).centroid = (ptInfo 0 3 1).centroid := rfl
  have h3 : (ptInfo 2 3 1).centroid = (ptInfo 0 3 1).centroid := rfl
  have h4 : (ptInfo 3 3 1).centroid = (ptInfo 0 3 1).centroid := rfl
  have h5 : (ptInfo 4 3 1).centroid = (ptInfo 0 3 1).centroid := rfl
  exact ⟨h2, h3, h4, h5,
    (c5_colocated_single_leaf cuFirst cmUnit 4 (ptInfo 0 3 1) (ptInfo 1 3 1)
      (ptInfo 2 3 1) (ptInfo 3 3 1) (ptInfo 4 3 1) h2 h3 h4 h5).2.2.2⟩

/-- C6 witness: on a concrete centroid box with positive x-extent the SAOH
search chooses axis 0, whose extent is positive. -/
theorem c6_witness :
    split_saoh cuFirst cmUnit ⟨⟨0, 0, 0⟩, ⟨12, 0, 0⟩⟩ [] 2 0 1
      ⟨⟨0, 0, 0⟩, ⟨0, 0, 0⟩⟩ = some (0, 0, 0) ∧
    0 < BoundBox.extent ⟨⟨0, 0, 0⟩, ⟨12, 0, 0⟩⟩ 0 := by
  have h : split_saoh cuFirst cmUnit ⟨⟨0, 0, 0⟩, ⟨12, 0, 0⟩⟩ [] 2 0 1
      ⟨⟨0, 0, 0⟩, ⟨0, 0, 0⟩⟩ = some (0, 0, 0) := by decide
  exact ⟨h, (c6_split_skips_zero_extent cuFirst cmUnit
    ⟨⟨0, 0, 0⟩, ⟨12, 0, 0⟩⟩ [] 2 0 1 ⟨⟨0, 0, 0⟩, ⟨0, 0, 0⟩⟩).2 0 0 0 h⟩

/-- C7 witness: the in-range constructor case applied at concrete angles. -/
theorem c7_witness :
    (0 : ℝ) ≤ 1 ∧ (1 : ℝ) ≤ Real.pi ∧
    inRangeCone (OrientationR.make ⟨1, 0, 0⟩ 1 1) := by
  have h1 : (0 : ℝ) ≤ 1 := by norm_num
  have h2 : (1 : ℝ) ≤ Real.pi := by
    have := Real.pi_gt_three
    linarith
  exact ⟨h1, h2, c7_amended_cone_ranges.2.1 ⟨1, 0, 0⟩ 1 1 h1 h2 h1 h2⟩

/-- C8 witness: the covering property applied at two concrete cones. -/
theorem c8_witness :
    (OrientationR.make ⟨1, 0, 0⟩ 1 1).axis ≠ (⟨0, 0, 0⟩ : R3) ∧
    (cone_union (OrientationR.make ⟨1, 0, 0⟩ 1 1)
      (OrientationR.make ⟨1, 0, 0⟩ 2 2)).theta_e = max 1 2 := by
  have hne : (OrientationR.make ⟨1, 0, 0⟩ 1 1).axis ≠ (⟨0, 0, 0⟩ : R3) := by
    intro h
    exact one_ne_zero (congrArg R3.x h)
  exact ⟨hne, (c8_cone_union_covers (OrientationR.make ⟨1, 0, 0⟩ 1 1)
    (OrientationR.make ⟨1, 0, 0⟩ 2 2) hne).2.2⟩

/-- C9 counterexample: four concrete point lights on a line, built with
`maxPrimsInNode = 2`, force a `1 | 3` split and produce 5 nodes, exceeding the
claimed bound `2 * ceil(4 / 2) - 1 = 3`. -/
theorem c9_counterexample :
    ¬ ((recursive_build cuFirst cmUnit 2 4 0
      [ptInfo 0 0 1, ptInfo 1 10 1, ptInfo 2 11 1, ptInfo 3 12 1]).2.2 ≤
        2 * ((4 + 2 - 1) / 2) - 1) := by decide

/-- C9 witness: the amended `2N - 1` bound applied at a concrete two-record
input. -/
theorem c9_witness :
    ([ptInfo 0 0 1, ptInfo 1 12 1] : List BVHPrimitiveInfo) ≠ [] ∧
    (recursive_build cuFirst cmUnit 1 4 0
      [ptInfo 0 0 1, ptInfo 1 12 1]).2.2 ≤ 2 * 2 - 1 := by
  have h : ([ptInfo 0 0 1, ptInfo 1 12 1] : List BVHPrimitiveInfo) ≠ [] := by
    simp
  have hb := c9_amended_node_bound cuFirst cmUnit 1 4 0
    [ptInfo 0 0 1, ptInfo 1 12 1] h
  exact ⟨h, by simpa using hb⟩

/-- C10 witness: the bucket bound applied at a concrete comparator and
record. -/
theorem c10_witness :
    (0 : ℤ) < 4 ∧
    (0 : ℚ) < (⟨⟨0, 0, 0⟩, ⟨12, 0, 0⟩⟩ : BoundBox).max.nth 0 -
      (⟨⟨0, 0, 0⟩, ⟨12, 0, 0⟩⟩ : BoundBox).min.nth 0 ∧
    0 ≤ (CompareToBucket.make 1 4 0
      ⟨⟨0, 0, 0⟩, ⟨12, 0, 0⟩⟩).bucketFor (ptInfo 0 10 1) := by
  refine ⟨by decide, by decide, ?_⟩
  exact (c10_bucket_index_bounds 1 4 0 ⟨⟨0, 0, 0⟩, ⟨12, 0, 0⟩⟩ (ptInfo 0 10 1)
    (by decide) (by decide) (by decide) (by decide)).1

end ConcreteEvaluation

end CyclesLightTree
